import Mathlib

/-
Verification of the DeliveryAPI service (src/main.py).

The service is a small HTTP application managing three in-memory dictionaries:
carts (user_id -> Cart), user_addresses (user_id -> list of DeliveryAddress)
and deliveries (order_id -> DeliveryInfo).  We embed the handlers as pure
functions over an explicit server state.  Python dictionaries become
association lists with Python's update-or-append assignment semantics;
Python floats become exact rationals; Python ints become integers; fallible
handlers (those that raise HTTPException) return an Except value.  The ids
generated by uuid4 enter the model as parameters: a Product or
DeliveryAddress arrives at a handler with its id already filled in (pydantic
fills it at parse time), and checkout receives the fresh order_id it would
generate.
-/

set_option autoImplicit false

namespace DeliveryAPI

/-- Model of Python's str.lower restricted to the alphabets the source
compares: ASCII letters, the main Cyrillic block U+0400..U+042F (which
contains the Ukrainian letters Є, І, Ї and А..Я), and Ґ (U+0490).
These are the Unicode simple lowercase mappings used by Python. -/
def charLower (c : Char) : Char :=
  let n := c.toNat
  if 65 ≤ n ∧ n ≤ 90 then Char.ofNat (n + 32)
  else if 0x410 ≤ n ∧ n ≤ 0x42F then Char.ofNat (n + 0x20)
  else if 0x400 ≤ n ∧ n ≤ 0x40F then Char.ofNat (n + 0x50)
  else if n = 0x490 then Char.ofNat 0x491
  else c

/-- Model of Python's `s.lower()`. -/
def pyLower (s : String) : String :=
  ⟨s.data.map charLower⟩

/-- Model of Python's `s.endswith(t)`. -/
def py_endswith (s t : String) : Bool :=
  List.isSuffixOf t.data s.data

/-- Product model (src/main.py, class Product).  The id is a string, filled
by the client or generated at parse time; price is a float (modelled
exactly), quantity an int. -/
structure Product where
  id : String
  name : String
  price : ℚ
  quantity : ℤ
deriving DecidableEq

/-- Cart model (src/main.py, class Cart). -/
structure Cart where
  user_id : String
  items : List Product
  total : ℚ
deriving DecidableEq

/-- DeliveryAddress model (src/main.py, class DeliveryAddress). -/
structure DeliveryAddress where
  id : String
  street : String
  city : String
  postal_code : String
  country : String
deriving DecidableEq

/-- DeliveryInfo model (src/main.py, class DeliveryInfo). -/
structure DeliveryInfo where
  order_id : String
  user_id : String
  delivery_address : DeliveryAddress
  delivery_cost : ℚ
  status : String
deriving DecidableEq

/-- An HTTPException raised by a handler: status code and detail message. -/
structure HTTPError where
  status_code : Nat
  detail : String
deriving DecidableEq

/-- Lookup in a Python dictionary modelled as an association list
(`d.get(k)`). -/
def dictGet {α : Type} (k : String) : List (String × α) → Option α
  | [] => none
  | (k', v) :: rest => if k' = k then some v else dictGet k rest

/-- Assignment `d[k] = v` in a Python dictionary: update the existing entry
in place, or append a new one. -/
def dictSet {α : Type} (k : String) (v : α) : List (String × α) → List (String × α)
  | [] => [(k, v)]
  | (k', v') :: rest => if k' = k then (k, v) :: rest else (k', v') :: dictSet k v rest

/-- The three in-memory stores of the service (src/main.py lines 59-61). -/
structure ServerState where
  carts : List (String × Cart)
  user_addresses : List (String × List DeliveryAddress)
  deliveries : List (String × DeliveryInfo)
deriving DecidableEq

/-- The stores at process start: all three dictionaries empty. -/
def emptyState : ServerState := ⟨[], [], []⟩

/-- Cost contribution of one cart line item, `price * quantity`. -/
def itemCost (p : Product) : ℚ := p.price * (p.quantity : ℚ)

/-- Sum of `price * quantity` over a list of items (the Cart invariant's
right-hand side). -/
def items_total (items : List Product) : ℚ :=
  (items.map itemCost).sum

/-- The sum computed by checkout, `sum(item.quantity * item.price ...)`
(src/main.py line 146). -/
def sum_items (items : List Product) : ℚ :=
  (items.map (fun item => (item.quantity : ℚ) * item.price)).sum

/-- GET /cart/user_id (src/main.py, get_cart): return the stored cart, or
create, store and return an empty one. -/
def get_cart (user_id : String) (s : ServerState) : ServerState × Cart :=
  match dictGet user_id s.carts with
  | some cart => (s, cart)
  | none =>
    let cart : Cart := ⟨user_id, [], 0⟩
    ({ s with carts := dictSet user_id cart s.carts }, cart)

/-- POST /cart/user_id/items (src/main.py, add_product_to_cart): fetch or
create the cart, append the product, add `price * quantity` to the total. -/
def add_product_to_cart (user_id : String) (product : Product) (s : ServerState) :
    ServerState × Cart :=
  let cart : Cart :=
    match dictGet user_id s.carts with
    | some c => c
    | none => ⟨user_id, [], 0⟩
  let cart' : Cart :=
    { cart with
      items := cart.items ++ [product],
      total := cart.total + product.price * (product.quantity : ℚ) }
  ({ s with carts := dictSet user_id cart' s.carts }, cart')

/-- The linear scan of src/main.py lines 110-114: the first item whose id
equals product_id, if any. -/
def find_product (product_id : String) : List Product → Option Product
  | [] => none
  | item :: rest => if item.id = product_id then some item else find_product product_id rest

/-- `cart.items.remove(product_to_remove)` where product_to_remove is the
first item whose id matches: removes exactly that occurrence.  (Python's
list.remove deletes the first element structurally equal to its argument;
since every earlier item has a different id, that element is the first one
whose id matches.) -/
def remove_first (product_id : String) : List Product → List Product
  | [] => []
  | item :: rest => if item.id = product_id then rest else item :: remove_first product_id rest

/-- DELETE /cart/user_id/items/product_id (src/main.py,
remove_product_from_cart): 404 if the cart is absent or no item matches;
otherwise remove the first matching item and subtract its
`price * quantity` from the total. -/
def remove_product_from_cart (user_id product_id : String) (s : ServerState) :
    Except HTTPError (ServerState × Cart) :=
  match dictGet user_id s.carts with
  | none => .error ⟨404, "Кошик не знайдено"⟩
  | some cart =>
    match find_product product_id cart.items with
    | none => .error ⟨404, "Товар не знайдено в кошику"⟩
    | some product_to_remove =>
      let cart' : Cart :=
        { cart with
          items := remove_first product_id cart.items,
          total := cart.total - product_to_remove.price * (product_to_remove.quantity : ℚ) }
      .ok ({ s with carts := dictSet user_id cart' s.carts }, cart')

/-- POST /cart/user_id/checkout (src/main.py, checkout): 400 if the cart is
absent or empty; otherwise compute delivery_cost = 5.0 + the sum of
`quantity * price` over the items, store a DeliveryInfo with status
"Processing" under the fresh order_id, and reset the user's cart to a new
empty Cart. -/
def checkout (user_id : String) (address : DeliveryAddress) (order_id : String)
    (s : ServerState) : Except HTTPError (ServerState × DeliveryInfo) :=
  match dictGet user_id s.carts with
  | none => .error ⟨400, "Кошик порожній"⟩
  | some cart =>
    if cart.items.length = 0 then .error ⟨400, "Кошик порожній"⟩
    else
      let delivery_cost : ℚ := 5 + sum_items cart.items
      let delivery_info : DeliveryInfo := ⟨order_id, user_id, address, delivery_cost, "Processing"⟩
      let s1 : ServerState := { s with deliveries := dictSet order_id delivery_info s.deliveries }
      let s2 : ServerState := { s1 with carts := dictSet user_id (⟨user_id, [], 0⟩ : Cart) s1.carts }
      .ok (s2, delivery_info)

/-- Request body of POST /delivery/calculate. -/
structure DeliveryCostRequest where
  address : DeliveryAddress
deriving DecidableEq

/-- Response body of POST /delivery/calculate. -/
structure DeliveryCostResponse where
  cost : ℚ
deriving DecidableEq

/-- POST /delivery/calculate (src/main.py, calculate_delivery_cost):
5.0 when the lowercased country is "україна", otherwise 15.0.  Stateless. -/
def calculate_delivery_cost (request : DeliveryCostRequest) : DeliveryCostResponse :=
  if pyLower request.address.country = "україна" then ⟨5⟩ else ⟨15⟩

/-- GET /delivery/info/order_id (src/main.py, get_delivery_info). -/
def get_delivery_info (order_id : String) (s : ServerState) : Except HTTPError DeliveryInfo :=
  match dictGet order_id s.deliveries with
  | none => .error ⟨404, "Інформацію про доставку не знайдено"⟩
  | some delivery => .ok delivery

/-- Request body of POST /delivery/availability. -/
structure AvailabilityCheckRequest where
  region : String
  product_id : String
deriving DecidableEq

/-- Response body of POST /delivery/availability. -/
structure AvailabilityCheckResponse where
  available : Bool
  message : String
deriving DecidableEq

/-- POST /delivery/availability (src/main.py, check_delivery_availability):
unavailable exactly when the lowercased region is "схід" and the product id
ends with "1".  Stateless. -/
def check_delivery_availability (request : AvailabilityCheckRequest) :
    AvailabilityCheckResponse :=
  if pyLower request.region = "схід" ∧ py_endswith request.product_id "1" = true then
    ⟨false, "Товар недоступний для доставки в даний регіон"⟩
  else
    ⟨true, "Товар доступний для доставки"⟩

/-- GET /user/user_id/addresses (src/main.py, get_user_addresses):
`user_addresses.get(user_id, [])`. -/
def get_user_addresses (user_id : String) (s : ServerState) : List DeliveryAddress :=
  (dictGet user_id s.user_addresses).getD []

/-- POST /user/user_id/addresses (src/main.py, add_delivery_address): append
the address to the user's list (starting from [] if absent), store and
return the whole list. -/
def add_delivery_address (user_id : String) (address : DeliveryAddress) (s : ServerState) :
    ServerState × List DeliveryAddress :=
  let addrs := (dictGet user_id s.user_addresses).getD []
  let addrs' := addrs ++ [address]
  ({ s with user_addresses := dictSet user_id addrs' s.user_addresses }, addrs')

/-- One client request among the state-mutating endpoints.  (The remaining
endpoints — get_delivery_info, get_user_addresses, calculate_delivery_cost,
check_delivery_availability — never write to the stores, as their
definitions above show by taking no state output.) -/
inductive Op where
  | getCart (user_id : String)
  | addProduct (user_id : String) (product : Product)
  | removeProduct (user_id : String) (product_id : String)
  | doCheckout (user_id : String) (address : DeliveryAddress) (order_id : String)
  | addAddress (user_id : String) (address : DeliveryAddress)
deriving DecidableEq

/-- Server-state transition of one request; a request whose handler raises
leaves the stores as they were. -/
def step (s : ServerState) (op : Op) : ServerState :=
  match op with
  | .getCart u => (get_cart u s).1
  | .addProduct u p => (add_product_to_cart u p s).1
  | .removeProduct u pid =>
    match remove_product_from_cart u pid s with
    | .ok (s', _) => s'
    | .error _ => s
  | .doCheckout u a oid =>
    match checkout u a oid s with
    | .ok (s', _) => s'
    | .error _ => s
  | .addAddress u a => (add_delivery_address u a s).1

/-- State of the stores after a sequence of requests from process start. -/
def run (ops : List Op) : ServerState :=
  ops.foldl step emptyState

/-- The invariant of the Cart Store: every stored cart's total is the sum of
`price * quantity` over its items. -/
def carts_ok (s : ServerState) : Prop :=
  ∀ u c, dictGet u s.carts = some c → c.total = items_total c.items

-- Concrete fixtures used by the witness theorems.

/-- A sample product: price 10, quantity 2. -/
def prodA : Product := ⟨"p1", "Ноутбук", 10, 2⟩

/-- A second sample product: price 3, quantity 1. -/
def prodB : Product := ⟨"p2", "Монітор", 3, 1⟩

/-- A product sharing prodA's id but with different fields. -/
def prodDup : Product := ⟨"p1", "Кабель", 7, 4⟩

/-- A product with a fresh id but prodA's price and quantity. -/
def prodC : Product := ⟨"p9", "Ноутбук Б", 10, 2⟩

/-- A sample Ukrainian address. -/
def addrKyiv : DeliveryAddress := ⟨"a1", "Вулиця Шевченка, 10", "Київ", "01001", "Україна"⟩

/-- A sample foreign address. -/
def addrBerlin : DeliveryAddress := ⟨"a2", "Hauptstr. 5", "Berlin", "10115", "Germany"⟩

/-- A store holding one cart for user "u1" with the single item prodA. -/
def stateA : ServerState := (add_product_to_cart "u1" prodA emptyState).1

/-- stateA with prodDup also added: the cart holds two items with id "p1". -/
def stateDup : ServerState := (add_product_to_cart "u1" prodDup stateA).1

end DeliveryAPI

namespace DeliveryAPI

theorem dictGet_dictSet {α : Type} (k k' : String) (v : α) (l : List (String × α)) :
    dictGet k (dictSet k' v l) = if k' = k then some v else dictGet k l := by
  induction l with
  | nil => simp [dictGet, dictSet]
  | cons hd tl ih =>
    obtain ⟨k0, v0⟩ := hd
    by_cases h : k0 = k'
    · subst h
      simp only [dictSet, if_pos rfl, dictGet]
      by_cases h2 : k0 = k <;> simp [h2]
    · simp only [dictSet, if_neg h, dictGet]
      by_cases h2 : k0 = k
      · subst h2
        have hne : ¬k' = k0 := fun hh => h hh.symm
        simp [hne]
      · simp [h2, ih]

theorem items_total_nil : items_total [] = 0 := rfl

theorem items_total_cons (p : Product) (l : List Product) :
    items_total (p :: l) = itemCost p + items_total l := by
  simp [items_total]

theorem items_total_append_one (l : List Product) (p : Product) :
    items_total (l ++ [p]) = items_total l + itemCost p := by
  simp [items_total]

theorem items_total_remove_first (pid : String) (l : List Product) (m : Product)
    (h : find_product pid l = some m) :
    items_total (remove_first pid l) = items_total l - itemCost m := by
  induction l with
  | nil => simp [find_product] at h
  | cons item rest ih =>
    by_cases hid : item.id = pid
    · simp only [find_product, if_pos hid] at h
      obtain rfl : item = m := Option.some.inj h
      simp only [remove_first, if_pos hid, items_total_cons]
      ring
    · simp only [find_product, if_neg hid] at h
      simp only [remove_first, if_neg hid]
      rw [items_total_cons, items_total_cons, ih h]
      ring

theorem carts_ok_empty : carts_ok emptyState := by
  intro u c h
  simp [emptyState, dictGet] at h

theorem carts_ok_step (s : ServerState) (op : Op) (hs : carts_ok s) : carts_ok (step s op) := by
  cases op with
  | getCart u =>
    intro u' c h
    simp only [step, get_cart] at h
    cases hc : dictGet u s.carts with
    | some cart =>
      rw [hc] at h
      exact hs u' c h
    | none =>
      rw [hc] at h
      simp only at h
      rw [dictGet_dictSet] at h
      split at h
      · cases h
        simp [items_total]
      · exact hs u' c h
  | addProduct u p =>
    intro u' c h
    simp only [step, add_product_to_cart] at h
    rw [dictGet_dictSet] at h
    split at h
    · cases h
      cases hc : dictGet u s.carts with
      | some c0 =>
        have h0 := hs u c0 hc
        simp only [hc, items_total_append_one, h0, itemCost]
      | none =>
        simp [hc, items_total_append_one, items_total, itemCost]
    · exact hs u' c h
  | removeProduct u pid =>
    intro u' c h
    simp only [step] at h
    split at h
    · rename_i s' r heq
      simp only [remove_product_from_cart] at heq
      split at heq
      · exact absurd heq (by simp)
      · rename_i cart hc
        split at heq
        · exact absurd heq (by simp)
        · rename_i m hm
          simp only [Except.ok.injEq, Prod.mk.injEq] at heq
          obtain ⟨hs', _⟩ := heq
          subst hs'
          simp only at h
          rw [dictGet_dictSet] at h
          split at h
          · cases h
            have h0 := hs u cart hc
            simp only [items_total_remove_first pid cart.items m hm, h0, itemCost]
          · exact hs u' c h
    · exact hs u' c h
  | doCheckout u a oid =>
    intro u' c h
    simp only [step] at h
    split at h
    · rename_i s' r heq
      simp only [checkout] at heq
      split at heq
      · exact absurd heq (by simp)
      · rename_i cart hc
        split at heq
        · exact absurd heq (by simp)
        · simp only [Except.ok.injEq, Prod.mk.injEq] at heq
          obtain ⟨hs', _⟩ := heq
          subst hs'
          simp only at h
          rw [dictGet_dictSet] at h
          split at h
          · cases h
            simp [items_total]
          · exact hs u' c h
    · exact hs u' c h
  | addAddress u a =>
    intro u' c h
    simp only [step, add_delivery_address] at h
    exact hs u' c h

theorem carts_ok_foldl (ops : List Op) :
    ∀ s : ServerState, carts_ok s → carts_ok (ops.foldl step s) := by
  induction ops with
  | nil => intro s hs; exact hs
  | cons op rest ih =>
    intro s hs
    exact ih (step s op) (carts_ok_step s op hs)

theorem carts_ok_run (ops : List Op) : carts_ok (run ops) :=
  carts_ok_foldl ops emptyState carts_ok_empty

theorem dictGet_addProduct_foldl (u : String) (ps : List Product) :
    ∀ (s : ServerState) (c : Cart), dictGet u s.carts = some c →
      dictGet u ((ps.map (Op.addProduct u)).foldl step s).carts =
        some ⟨c.user_id, c.items ++ ps, c.total + items_total ps⟩ := by
  induction ps with
  | nil =>
    intro s c hc
    simpa [items_total] using hc
  | cons p rest ih =>
    intro s c hc
    have hstep : dictGet u (step s (Op.addProduct u p)).carts =
        some ⟨c.user_id, c.items ++ [p], c.total + itemCost p⟩ := by
      simp only [step, add_product_to_cart]
      rw [dictGet_dictSet]
      simp [hc, itemCost]
    have hrest := ih (step s (Op.addProduct u p)) ⟨c.user_id, c.items ++ [p], c.total + itemCost p⟩ hstep
    simp only [List.map, List.foldl]
    rw [hrest]
    simp only [Option.some.injEq, Cart.mk.injEq, List.append_assoc, List.singleton_append,
      items_total_cons]
    refine ⟨trivial, trivial, by ring⟩

/-- C1: starting from empty stores, after any sequence of operations every
cart in the Cart Store has total equal to the sum of price*quantity over its
items; in particular, after any sequence of add_product calls on a fresh
cart, the total equals the sum of price*quantity over the added items. -/
theorem cart_total_invariant :
    (∀ (ops : List Op) (u : String) (c : Cart),
        dictGet u (run ops).carts = some c → c.total = items_total c.items) ∧
    (∀ (u : String) (ps : List Product) (c : Cart),
        dictGet u (run (ps.map (Op.addProduct u))).carts = some c →
        c.total = items_total ps) := by
  constructor
  · intro ops u c h
    exact carts_ok_run ops u c h
  · intro u ps c h
    cases ps with
    | nil => simp [run, emptyState, dictGet] at h
    | cons p rest =>
      have h1 : dictGet u (step emptyState (Op.addProduct u p)).carts =
          some ⟨u, [p], itemCost p⟩ := by
        simp [step, add_product_to_cart, emptyState, dictGet, dictSet, itemCost]
      have h2 := dictGet_addProduct_foldl u rest (step emptyState (Op.addProduct u p))
        ⟨u, [p], itemCost p⟩ h1
      simp only [run, List.map, List.foldl] at h
      rw [h2] at h
      cases h
      simp [items_total_cons]

/-- Witness for C1: a concrete three-request run (two adds, one removal) in
which the stored cart's total, 3, indeed equals the sum over its items. -/
theorem cart_total_invariant_witness :
    (⟨"u1", [prodB], 3⟩ : Cart).total = items_total (⟨"u1", [prodB], 3⟩ : Cart).items := by
  have h : dictGet "u1"
      (run [Op.addProduct "u1" prodA, Op.addProduct "u1" prodB,
            Op.removeProduct "u1" "p1"]).carts = some ⟨"u1", [prodB], 3⟩ := by
    simp only [run, List.foldl, step, emptyState, add_product_to_cart, remove_product_from_cart,
      dictGet, dictSet, find_product, remove_first, prodA, prodB]
    norm_num
  exact cart_total_invariant.1 _ "u1" _ h

/-- C2: on a stored, non-empty cart, checkout succeeds and returns a
DeliveryInfo with delivery_cost = 5 + the sum of quantity*price over the
cart items, status "Processing", the given address, the generated order id
and the user id; it stores that DeliveryInfo in the Delivery Store under the
order id and resets the user's cart to empty, so that a subsequent get_cart
returns items = [] and total = 0. -/
theorem checkout_success_spec (s : ServerState) (u oid : String) (addr : DeliveryAddress)
    (c : Cart) (hc : dictGet u s.carts = some c) (hne : c.items ≠ []) :
    ∃ (s' : ServerState) (info : DeliveryInfo),
      checkout u addr oid s = .ok (s', info) ∧
      info.delivery_cost = 5 + sum_items c.items ∧
      info.status = "Processing" ∧
      info.delivery_address = addr ∧
      info.order_id = oid ∧
      info.user_id = u ∧
      dictGet oid s'.deliveries = some info ∧
      dictGet u s'.carts = some ⟨u, [], 0⟩ ∧
      (get_cart u s').2.items = [] ∧
      (get_cart u s').2.total = 0 := by
  have hlen : ¬c.items.length = 0 := by simpa using hne
  simp only [checkout, hc, if_neg hlen]
  refine ⟨_, _, rfl, rfl, rfl, rfl, rfl, rfl, ?_, ?_, ?_, ?_⟩
  · simp [dictGet_dictSet]
  · simp [dictGet_dictSet]
  · simp [get_cart, dictGet_dictSet]
  · simp [get_cart, dictGet_dictSet]

/-- Witness for C2: checkout of a cart holding one item with price 10 and
quantity 2 yields delivery_cost 25 and leaves the cart empty. -/
theorem checkout_success_spec_witness :
    ∃ (s' : ServerState) (info : DeliveryInfo),
      checkout "u1" addrKyiv "o1" stateA = .ok (s', info) ∧
      info.delivery_cost = 25 ∧
      info.status = "Processing" ∧
      (get_cart "u1" s').2.items = [] ∧
      (get_cart "u1" s').2.total = 0 := by
  have hc : dictGet "u1" stateA.carts = some ⟨"u1", [prodA], 20⟩ := by
    simp [stateA, add_product_to_cart, emptyState, dictGet, dictSet, prodA]
    norm_num
  obtain ⟨s', info, h1, h2, h3, _, _, _, _, _, h9, h10⟩ :=
    checkout_success_spec stateA "u1" "o1" addrKyiv ⟨"u1", [prodA], 20⟩ hc (by simp)
  refine ⟨s', info, h1, ?_, h3, h9, h10⟩
  rw [h2]
  norm_num [sum_items, prodA]

/-- C3: checkout fails, with the single error 400 "Кошик порожній", exactly
when the user's cart is absent from the Cart Store or has zero items; a
failing checkout leaves the server state (hence the Delivery Store)
untouched, so no DeliveryInfo is created. -/
theorem checkout_error_iff (s : ServerState) (u oid : String) (addr : DeliveryAddress) :
    ((∃ e, checkout u addr oid s = .error e) ↔
      (dictGet u s.carts = none ∨ ∃ c, dictGet u s.carts = some c ∧ c.items = [])) ∧
    (∀ e, checkout u addr oid s = .error e → e = ⟨400, "Кошик порожній"⟩) ∧
    (∀ e, checkout u addr oid s = .error e → step s (.doCheckout u addr oid) = s) := by
  cases hcc : dictGet u s.carts with
  | none =>
    have hck : checkout u addr oid s = .error ⟨400, "Кошик порожній"⟩ := by
      simp [checkout, hcc]
    refine ⟨⟨fun _ => Or.inl rfl, fun _ => ⟨_, hck⟩⟩, ?_, ?_⟩
    · intro e he
      rw [hck] at he
      injection he with h
      exact h.symm
    · intro e he
      simp [step, he]
  | some c =>
    by_cases hl : c.items.length = 0
    · have hck : checkout u addr oid s = .error ⟨400, "Кошик порожній"⟩ := by
        simp [checkout, hcc, hl]
      have hnil : c.items = [] := List.length_eq_zero.mp hl
      refine ⟨⟨fun _ => Or.inr ⟨c, rfl, hnil⟩, fun _ => ⟨_, hck⟩⟩, ?_, ?_⟩
      · intro e he
        rw [hck] at he
        injection he with h
        exact h.symm
      · intro e he
        simp [step, he]
    · have hck : ∃ s' info, checkout u addr oid s = .ok (s', info) := by
        simp only [checkout, hcc, if_neg hl]
        exact ⟨_, _, rfl⟩
      obtain ⟨s', info, hok⟩ := hck
      refine ⟨⟨?_, ?_⟩, ?_, ?_⟩
      · rintro ⟨e, he⟩
        rw [hok] at he
        exact absurd he (by simp)
      · rintro (h1 | ⟨c', hc', hn⟩)
        · exact absurd h1 (by simp)
        · injection hc' with h
          subst h
          exact absurd (List.length_eq_zero.mpr hn) hl
      · intro e he
        rw [hok] at he
        exact absurd he (by simp)
      · intro e he
        rw [hok] at he
        exact absurd he (by simp)

/-- Witness for C3: checkout for a user with no cart fails with
400 "Кошик порожній". -/
theorem checkout_error_iff_witness :
    checkout "u0" addrKyiv "o0" emptyState = .error ⟨400, "Кошик порожній"⟩ := by
  have h := checkout_error_iff emptyState "u0" "o0" addrKyiv
  obtain ⟨e, he⟩ := h.1.mpr (Or.inl rfl)
  have h4 := h.2.1 e he
  rw [h4] at he
  exact he

theorem find_product_eq_none (pid : String) (l : List Product) :
    find_product pid l = none ↔ ∀ i ∈ l, i.id ≠ pid := by
  induction l with
  | nil => simp [find_product]
  | cons item rest ih =>
    by_cases h : item.id = pid
    · simp [find_product, h]
    · simp [find_product, h, ih]

theorem remove_ok (s : ServerState) (u pid : String) (c : Cart) (m : Product)
    (hc : dictGet u s.carts = some c) (hm : find_product pid c.items = some m) :
    remove_product_from_cart u pid s =
      .ok ({ s with carts := (dictSet u
               (⟨c.user_id, remove_first pid c.items, c.total - itemCost m⟩ : Cart)
               s.carts) },
           (⟨c.user_id, remove_first pid c.items, c.total - itemCost m⟩ : Cart)) := by
  simp only [remove_product_from_cart, hc, hm, itemCost]

/-- C4: remove_product fails (with a 404 NotFound) exactly when the user's
cart does not exist or no item in it has the given product id; on success it
returns and stores the cart with the first matching item removed and the
total decremented by that item's price*quantity. -/
theorem remove_product_spec (s : ServerState) (u pid : String) :
    ((∃ e, remove_product_from_cart u pid s = .error e) ↔
      (dictGet u s.carts = none ∨
        ∃ c, dictGet u s.carts = some c ∧ ∀ i ∈ c.items, i.id ≠ pid)) ∧
    (∀ e, remove_product_from_cart u pid s = .error e → e.status_code = 404) ∧
    (∀ c m, dictGet u s.carts = some c → find_product pid c.items = some m →
      ∃ s', remove_product_from_cart u pid s =
          .ok (s', ⟨c.user_id, remove_first pid c.items, c.total - itemCost m⟩) ∧
        dictGet u s'.carts = some ⟨c.user_id, remove_first pid c.items, c.total - itemCost m⟩) := by
  refine ⟨?_, ?_, ?_⟩
  · cases hcc : dictGet u s.carts with
    | none =>
      have hr : remove_product_from_cart u pid s = .error ⟨404, "Кошик не знайдено"⟩ := by
        simp [remove_product_from_cart, hcc]
      exact ⟨fun _ => Or.inl rfl, fun _ => ⟨_, hr⟩⟩
    | some c =>
      cases hf : find_product pid c.items with
      | none =>
        have hr : remove_product_from_cart u pid s = .error ⟨404, "Товар не знайдено в кошику"⟩ := by
          simp [remove_product_from_cart, hcc, hf]
        exact ⟨fun _ => Or.inr ⟨c, rfl, (find_product_eq_none pid c.items).mp hf⟩,
          fun _ => ⟨_, hr⟩⟩
      | some m =>
        have hr := remove_ok s u pid c m hcc hf
        constructor
        · rintro ⟨e, he⟩
          rw [hr] at he
          exact absurd he (by simp)
        · rintro (h1 | ⟨c', hc', hall⟩)
          · exact absurd h1 (by simp)
          · injection hc' with h
            subst h
            rw [(find_product_eq_none pid c.items).mpr hall] at hf
            cases hf
  · intro e he
    cases hcc : dictGet u s.carts with
    | none =>
      have hr : remove_product_from_cart u pid s = .error ⟨404, "Кошик не знайдено"⟩ := by
        simp [remove_product_from_cart, hcc]
      rw [hr] at he
      injection he with h
      rw [← h]
    | some c =>
      cases hf : find_product pid c.items with
      | none =>
        have hr : remove_product_from_cart u pid s = .error ⟨404, "Товар не знайдено в кошику"⟩ := by
          simp [remove_product_from_cart, hcc, hf]
        rw [hr] at he
        injection he with h
        rw [← h]
      | some m =>
        rw [remove_ok s u pid c m hcc hf] at he
        exact absurd he (by simp)
  · intro c m hc hm
    refine ⟨_, remove_ok s u pid c m hc hm, ?_⟩
    simp [dictGet_dictSet]

/-- Witness for C4: removing product id "p1" from a stored cart holding only
prodA (price 10, quantity 2, total 20) succeeds and leaves the empty cart
with total 0. -/
theorem remove_product_spec_witness :
    ∃ s', remove_product_from_cart "u1" "p1" stateA = .ok (s', ⟨"u1", [], 0⟩) ∧
      dictGet "u1" s'.carts = some ⟨"u1", [], 0⟩ := by
  have hc : dictGet "u1" stateA.carts = some ⟨"u1", [prodA], 20⟩ := by
    simp [stateA, add_product_to_cart, emptyState, dictGet, dictSet, prodA]
    norm_num
  have hf : find_product "p1" [prodA] = some prodA := by
    simp [find_product, prodA]
  obtain ⟨s', h1, h2⟩ :=
    (remove_product_spec stateA "u1" "p1").2.2 ⟨"u1", [prodA], 20⟩ prodA hc hf
  norm_num [remove_first, prodA, itemCost] at h1 h2
  exact ⟨s', h1, h2⟩

/-- C5: the two fallible handlers are atomic in their errors: whenever
remove_product or checkout raises, the transition of that request leaves the
whole server state (all three stores) exactly as it was. -/
theorem error_atomicity (s : ServerState) (u pid oid : String) (addr : DeliveryAddress) :
    ((∃ e, remove_product_from_cart u pid s = .error e) → step s (.removeProduct u pid) = s) ∧
    ((∃ e, checkout u addr oid s = .error e) → step s (.doCheckout u addr oid) = s) := by
  constructor
  · rintro ⟨e, he⟩
    simp [step, he]
  · rintro ⟨e, he⟩
    simp [step, he]

/-- Witness for C5: on empty stores both handlers fail and both transitions
leave the state equal to emptyState. -/
theorem error_atomicity_witness :
    step emptyState (.removeProduct "u0" "p0") = emptyState ∧
    step emptyState (.doCheckout "u0" addrKyiv "o0") = emptyState := by
  refine ⟨(error_atomicity emptyState "u0" "p0" "o0" addrKyiv).1 ⟨⟨404, "Кошик не знайдено"⟩, rfl⟩,
    (error_atomicity emptyState "u0" "p0" "o0" addrKyiv).2 ⟨⟨400, "Кошик порожній"⟩, rfl⟩⟩

/-- C6: calculate_delivery_cost is a pure function of the address's country
under the lowercasing comparison of the source: it returns 5 when the
lowercased country is "україна" and 15 for every other country string,
the empty string included. -/
theorem calculate_delivery_cost_spec :
    (∀ req : DeliveryCostRequest,
        (calculate_delivery_cost req).cost =
          if pyLower req.address.country = "україна" then 5 else 15) ∧
    (∀ req req' : DeliveryCostRequest, req.address.country = req'.address.country →
        calculate_delivery_cost req = calculate_delivery_cost req') ∧
    (∀ req : DeliveryCostRequest, req.address.country = "" →
        (calculate_delivery_cost req).cost = 15) := by
  refine ⟨?_, ?_, ?_⟩
  · intro req
    by_cases h : pyLower req.address.country = "україна" <;>
      simp [calculate_delivery_cost, h]
  · intro req req' h
    simp [calculate_delivery_cost, h]
  · intro req h
    have : ¬pyLower req.address.country = "україна" := by
      rw [h]
      decide
    simp [calculate_delivery_cost, this]

/-- Witness for C6: cost 5 for country "Україна", 15 for "Germany", 15 for
the empty country string. -/
theorem calculate_delivery_cost_spec_witness :
    (calculate_delivery_cost ⟨addrKyiv⟩).cost = 5 ∧
    (calculate_delivery_cost ⟨addrBerlin⟩).cost = 15 ∧
    (calculate_delivery_cost ⟨⟨"a3", "s", "c", "z", ""⟩⟩).cost = 15 := by
  refine ⟨?_, ?_, ?_⟩
  · rw [calculate_delivery_cost_spec.1 ⟨addrKyiv⟩, if_pos (by decide)]
  · rw [calculate_delivery_cost_spec.1 ⟨addrBerlin⟩, if_neg (by decide)]
  · exact calculate_delivery_cost_spec.2.2 ⟨⟨"a3", "s", "c", "z", ""⟩⟩ rfl

/-- C7: check_availability answers unavailable exactly when the lowercased
region is "схід" and the product id ends with "1"; otherwise it answers
available, each case carrying its fixed message. -/
theorem check_availability_spec (req : AvailabilityCheckRequest) :
    ((check_delivery_availability req).available = false ↔
      (pyLower req.region = "схід" ∧ py_endswith req.product_id "1" = true)) ∧
    ((check_delivery_availability req).available = false →
      (check_delivery_availability req).message =
        "Товар недоступний для доставки в даний регіон") ∧
    ((check_delivery_availability req).available = true →
      (check_delivery_availability req).message = "Товар доступний для доставки") := by
  by_cases h : pyLower req.region = "схід" ∧ py_endswith req.product_id "1" = true <;>
    simp [check_delivery_availability, h]

/-- Witness for C7: region "Схід" with product id "abc1231" is unavailable;
region "ЗАХІД" with the same product id is available. -/
theorem check_availability_spec_witness :
    (check_delivery_availability ⟨"Схід", "abc1231"⟩).available = false ∧
    (check_delivery_availability ⟨"ЗАХІД", "abc1231"⟩).available = true := by
  constructor
  · exact (check_availability_spec ⟨"Схід", "abc1231"⟩).1.mpr (by decide)
  · have hne : ¬(check_delivery_availability ⟨"ЗАХІД", "abc1231"⟩).available = false := by
      rw [(check_availability_spec ⟨"ЗАХІД", "abc1231"⟩).1]
      decide
    simpa using hne

theorem get_user_addresses_add (u u' : String) (a : DeliveryAddress) (s : ServerState) :
    get_user_addresses u (add_delivery_address u' a s).1 =
      if u' = u then get_user_addresses u s ++ [a] else get_user_addresses u s := by
  simp only [get_user_addresses, add_delivery_address]
  rw [dictGet_dictSet]
  by_cases h : u' = u
  · subst h
    simp
  · simp [h]

theorem addAddress_foldl (u : String) (as : List DeliveryAddress) :
    ∀ s : ServerState,
      get_user_addresses u ((as.map (Op.addAddress u)).foldl step s) =
        get_user_addresses u s ++ as := by
  induction as with
  | nil =>
    intro s
    simp
  | cons a rest ih =>
    intro s
    simp only [List.map, List.foldl]
    rw [ih (step s (Op.addAddress u a))]
    have hone : get_user_addresses u (step s (Op.addAddress u a)) =
        get_user_addresses u s ++ [a] := by
      simp only [step]
      rw [get_user_addresses_add, if_pos rfl]
    rw [hone, List.append_assoc]
    rfl

/-- C8: the Address Store is append-only.  Every operation of the system
extends each user's address list on the right (so nothing is ever removed
or reordered); add_address appends the address and returns the full updated
list; and N add_address calls for a user starting from empty stores yield
exactly the N addresses in call order. -/
theorem address_store_spec :
    (∀ (op : Op) (s : ServerState) (u : String),
        ∃ tail, get_user_addresses u (step s op) = get_user_addresses u s ++ tail) ∧
    (∀ (s : ServerState) (u : String) (a : DeliveryAddress),
        (add_delivery_address u a s).2 = get_user_addresses u s ++ [a] ∧
        get_user_addresses u (add_delivery_address u a s).1 =
          get_user_addresses u s ++ [a]) ∧
    (∀ (u : String) (addrList : List DeliveryAddress),
        get_user_addresses u (run (addrList.map (Op.addAddress u))) = addrList) := by
  refine ⟨?_, ?_, ?_⟩
  · intro op s u
    cases op with
    | getCart u0 =>
      refine ⟨[], ?_⟩
      rw [List.append_nil]
      simp only [step, get_cart]
      cases hc : dictGet u0 s.carts <;> simp [get_user_addresses]
    | addProduct u0 p =>
      exact ⟨[], by simp [step, add_product_to_cart, get_user_addresses]⟩
    | removeProduct u0 pid =>
      refine ⟨[], ?_⟩
      rw [List.append_nil]
      simp only [step]
      split
      · rename_i s' r heq
        simp only [remove_product_from_cart] at heq
        split at heq
        · exact absurd heq (by simp)
        · rename_i cart hc
          split at heq
          · exact absurd heq (by simp)
          · rename_i m hm
            simp only [Except.ok.injEq, Prod.mk.injEq] at heq
            obtain ⟨hs', _⟩ := heq
            subst hs'
            simp [get_user_addresses]
      · rfl
    | doCheckout u0 a oid =>
      refine ⟨[], ?_⟩
      rw [List.append_nil]
      simp only [step]
      split
      · rename_i s' r heq
        simp only [checkout] at heq
        split at heq
        · exact absurd heq (by simp)
        · rename_i cart hc
          split at heq
          · exact absurd heq (by simp)
          · simp only [Except.ok.injEq, Prod.mk.injEq] at heq
            obtain ⟨hs', _⟩ := heq
            subst hs'
            simp [get_user_addresses]
      · rfl
    | addAddress u0 a =>
      by_cases h : u0 = u
      · exact ⟨[a], by simp only [step]; rw [get_user_addresses_add, if_pos h]⟩
      · exact ⟨[], by simp only [step]; rw [get_user_addresses_add, if_neg h, List.append_nil]⟩
  · intro s u a
    exact ⟨rfl, by rw [get_user_addresses_add, if_pos rfl]⟩
  · intro u addrList
    have h := addAddress_foldl u addrList emptyState
    simpa [run, get_user_addresses, emptyState, dictGet] using h

/-- Witness for C8: two add_address calls for user "u2" from empty stores
store exactly those two addresses in call order. -/
theorem address_store_spec_witness :
    get_user_addresses "u2"
      (run [Op.addAddress "u2" addrKyiv, Op.addAddress "u2" addrBerlin]) =
      [addrKyiv, addrBerlin] :=
  address_store_spec.2.2 "u2" [addrKyiv, addrBerlin]

/-- C9: a successful remove_product of an item followed by add_product of a
product with the same price and quantity restores the cart's total to its
value before the removal. -/
theorem remove_then_add_restores_total (s : ServerState) (u pid : String) (p : Product)
    (c : Cart) (m : Product) (hc : dictGet u s.carts = some c)
    (hm : find_product pid c.items = some m) (hprice : m.price = p.price)
    (hqty : m.quantity = p.quantity) :
    ∃ s' c', remove_product_from_cart u pid s = .ok (s', c') ∧
      (add_product_to_cart u p s').2.total = c.total := by
  refine ⟨_, _, remove_ok s u pid c m hc hm, ?_⟩
  have hget : dictGet u
      (dictSet u
        (⟨c.user_id, remove_first pid c.items, c.total - m.price * (m.quantity : ℚ)⟩ : Cart)
        s.carts) =
      some (⟨c.user_id, remove_first pid c.items, c.total - m.price * (m.quantity : ℚ)⟩ : Cart) := by
    rw [dictGet_dictSet]
    simp
  simp only [add_product_to_cart, itemCost, hget]
  rw [← hprice, ← hqty]
  ring

/-- Witness for C9: in the one-item cart with total 20, removing "p1" and
adding a product with a different id but the same price 10 and quantity 2
brings the total back to 20. -/
theorem remove_then_add_restores_total_witness :
    ∃ s' c', remove_product_from_cart "u1" "p1" stateA = .ok (s', c') ∧
      (add_product_to_cart "u1" prodC s').2.total = 20 := by
  have hc : dictGet "u1" stateA.carts = some ⟨"u1", [prodA], 20⟩ := by
    simp [stateA, add_product_to_cart, emptyState, dictGet, dictSet, prodA]
    norm_num
  have hf : find_product "p1" [prodA] = some prodA := by
    simp [find_product, prodA]
  obtain ⟨s', c', h1, h2⟩ := remove_then_add_restores_total stateA "u1" "p1" prodC
    ⟨"u1", [prodA], 20⟩ prodA hc hf rfl rfl
  exact ⟨s', c', h1, h2⟩

theorem find_product_append (pid : String) (l1 l2 : List Product) (m : Product)
    (h1 : ∀ i ∈ l1, i.id ≠ pid) (hm : m.id = pid) :
    find_product pid (l1 ++ m :: l2) = some m := by
  induction l1 with
  | nil => simp [find_product, hm]
  | cons a rest ih =>
    have ha : a.id ≠ pid := h1 a (by simp)
    simp only [List.cons_append, find_product, if_neg ha]
    exact ih (fun i hi => h1 i (by simp [hi]))

theorem remove_first_append (pid : String) (l1 l2 : List Product) (m : Product)
    (h1 : ∀ i ∈ l1, i.id ≠ pid) (hm : m.id = pid) :
    remove_first pid (l1 ++ m :: l2) = l1 ++ l2 := by
  induction l1 with
  | nil => simp [remove_first, hm]
  | cons a rest ih =>
    have ha : a.id ≠ pid := h1 a (by simp)
    simp only [List.cons_append, remove_first, if_neg ha]
    exact congrArg (List.cons a) (ih (fun i hi => h1 i (by simp [hi])))

/-- C10: add_product performs no uniqueness check — it appends the product
to the stored cart whatever its id — so several items may share an id; and
remove_product on such a cart removes exactly the first item in insertion
order whose id matches, decrements the total by that single item's
price*quantity, and keeps the later same-id items. -/
theorem duplicate_id_handling :
    (∀ (s : ServerState) (u : String) (p : Product) (c : Cart),
        dictGet u s.carts = some c →
        (add_product_to_cart u p s).2.items = c.items ++ [p]) ∧
    (∀ (s : ServerState) (u pid : String) (c : Cart) (l1 l2 : List Product) (m : Product),
        dictGet u s.carts = some c → c.items = l1 ++ m :: l2 →
        (∀ i ∈ l1, i.id ≠ pid) → m.id = pid →
        ∃ s', remove_product_from_cart u pid s =
            .ok (s', ⟨c.user_id, l1 ++ l2, c.total - itemCost m⟩) ∧
          dictGet u s'.carts = some ⟨c.user_id, l1 ++ l2, c.total - itemCost m⟩) := by
  constructor
  · intro s u p c hc
    simp [add_product_to_cart, hc]
  · intro s u pid c l1 l2 m hc hitems h1 hm
    have hf : find_product pid c.items = some m := by
      rw [hitems]
      exact find_product_append pid l1 l2 m h1 hm
    have hrf : remove_first pid c.items = l1 ++ l2 := by
      rw [hitems]
      exact remove_first_append pid l1 l2 m h1 hm
    have hr := remove_ok s u pid c m hc hf
    rw [hrf] at hr
    refine ⟨_, hr, ?_⟩
    rw [dictGet_dictSet]
    simp

/-- Witness for C10: adding prodDup (id "p1") to the cart already holding
prodA (id "p1") yields two same-id items; removing "p1" then deletes only
prodA, leaves prodDup, and drops the total from 48 to 28. -/
theorem duplicate_id_handling_witness :
    (add_product_to_cart "u1" prodDup stateA).2.items = [prodA, prodDup] ∧
    ∃ s', remove_product_from_cart "u1" "p1" stateDup = .ok (s', ⟨"u1", [prodDup], 28⟩) ∧
      dictGet "u1" s'.carts = some ⟨"u1", [prodDup], 28⟩ := by
  have hcA : dictGet "u1" stateA.carts = some ⟨"u1", [prodA], 20⟩ := by
    simp [stateA, add_product_to_cart, emptyState, dictGet, dictSet, prodA]
    norm_num
  constructor
  · have h := duplicate_id_handling.1 stateA "u1" prodDup ⟨"u1", [prodA], 20⟩ hcA
    simpa using h
  · have hcD : dictGet "u1" stateDup.carts = some ⟨"u1", [prodA, prodDup], 48⟩ := by
      simp [stateDup, stateA, add_product_to_cart, emptyState, dictGet, dictSet, prodA, prodDup]
      norm_num
    obtain ⟨s', h1, h2⟩ := duplicate_id_handling.2 stateDup "u1" "p1"
      ⟨"u1", [prodA, prodDup], 48⟩ [] [prodDup] prodA hcD rfl (by simp) rfl
    norm_num [itemCost, prodA] at h1 h2
    exact ⟨s', h1, h2⟩

end DeliveryAPI
